import Mathlib

/-!
# goutils / ldaputil : the `create` and `list` commands

A shallow embedding of `src/ldaputil/ldap.go`.

The program talks to a directory server through the go-ldap client.  The
server is an external party, so it is a parameter of every definition: a
`Directory` answers each request as a function of the requests that were
issued before it on the same connection.  A run of a command is a pure
function producing a `RunResult`: the ordered trace of everything the command
did (requests, log lines, closing the connection) and the way the process
ended.

Go control flow that matters here:
* `log.Fatalf` prints its message and calls `os.Exit(1)`; `os.Exit` ends the
  process at once, deferred calls are not run;
* `defer l.Close()` runs when the `Run` closure returns normally.

Log lines are recorded without the timestamp prefix and the trailing newline
that package `log` adds, lines of standard output without their newline.  The
steps before the connection is opened (the environment check, reading and
decoding the two JSON files) are not part of the model: a run starts from the
decoded `[]Tree` and `[]Users`.

`fmt.Sprintf`, used for the DN of a user, is a parameter `sprintf` of the
loops; `GoSprintf` describes it on the formats made of plain text, `%s`, `%v`
and `%%`.
-/

namespace Ldaputil

/-! ## Data model -/

/-- The Go type `map[string][]string`, as the list of its key/value pairs (the
keys of a map are pairwise distinct). -/
abbrev AttrMap := List (String × List String)

/-- The struct `Users` (ldap.go 17-22), one record of the users file. -/
structure Users where
  User : String
  Password : String
  Ou : String
  Username : String
  deriving DecidableEq

/-- The struct `Tree` (ldap.go 24-27), one node of the tree file. -/
structure Tree where
  DN : String
  Attributes : AttrMap
  deriving DecidableEq

/-! ## The go-ldap client types used by the program -/

/-- The type `ldap.EntryAttribute`: a name with its values. -/
structure EntryAttribute where
  Name : String
  Values : List String
  deriving DecidableEq

/-- The type `ldap.Entry`. -/
structure Entry where
  DN : String
  Attributes : List EntryAttribute
  deriving DecidableEq

/-- The type `ldap.Attribute`, one attribute of an add request. -/
structure Attribute where
  AttrType : String
  Vals : List String
  deriving DecidableEq

/-- The type `ldap.AddRequest` (the program always passes `nil` controls). -/
structure AddRequest where
  DN : String
  Attributes : List Attribute
  deriving DecidableEq

/-- The operation of an `ldap.Change`. -/
inductive ChangeOp where
  | AddAttribute
  | DeleteAttribute
  | ReplaceAttribute
  | IncrementAttribute
  deriving DecidableEq

/-- The type `ldap.Change`: an operation on one attribute (`PartialAttribute`). -/
structure Change where
  Operation : ChangeOp
  AttrType : String
  Vals : List String
  deriving DecidableEq

/-- The type `ldap.ModifyRequest` (the program always passes `nil` controls). -/
structure ModifyRequest where
  DN : String
  Changes : List Change
  deriving DecidableEq

/-- The type `ldap.SearchRequest`, with the fields the program sets. -/
structure SearchRequest where
  BaseDN : String
  Scope : Nat
  DerefAliases : Nat
  SizeLimit : Nat
  TimeLimit : Nat
  TypesOnly : Bool
  Filter : String
  Attributes : List String
  deriving DecidableEq

/-- The constant `ldap.ScopeWholeSubtree`. -/
def ScopeWholeSubtree : Nat := 2

/-- The constant `ldap.NeverDerefAliases`. -/
def NeverDerefAliases : Nat := 0

/-- A Go `error` value returned by the client.  `ldapCode` is the result code
when the error is an `*ldap.Error` (`none` for any other error), `text` is what
its `Error()` method returns, which is what `%v` prints. -/
structure GoError where
  ldapCode : Option Nat
  text : String
  deriving DecidableEq

/-- The constant `ldap.LDAPResultEntryAlreadyExists`. -/
def LDAPResultEntryAlreadyExists : Nat := 68

/-- The function `ldap.IsErrorWithCode(err, code)` for a non-nil `err`. -/
def IsErrorWithCode (err : GoError) (desiredResultCode : Nat) : Bool :=
  err.ldapCode == some desiredResultCode

/-- A request sent over the connection. -/
inductive Request where
  | add (r : AddRequest)
  | modify (r : ModifyRequest)
  | search (r : SearchRequest)
  deriving DecidableEq

/-- The directory server and the network, as seen through the client.  Every
answer may depend on the requests issued earlier on the connection (oldest
first), so that whatever a server answers during one run is described by such
a value.  `none` is a `nil` error. -/
structure Directory where
  Dial : String → String → Option GoError
  Bind : String → String → Option GoError
  Add : List Request → AddRequest → Option GoError
  Modify : List Request → ModifyRequest → Option GoError
  Search : List Request → SearchRequest → Except GoError (List Entry)

/-- The package-level connection settings (ldap.go 42-45). -/
structure Config where
  ldapHost : String
  ldapPort : Int
  bindDN : String
  bindPassword : String
  deriving DecidableEq

/-- One observable action of a run. -/
inductive Event where
  | dial (network address : String)
  | bind (username password : String)
  | request (r : Request)
  | logPrint (msg : String)
  | logFatal (msg : String)
  | stdout (line : String)
  | close
  deriving DecidableEq

/-- How the process ended: the `Run` closure returned, or `os.Exit(code)`. -/
inductive Exit where
  | returned
  | osExit (code : Nat)
  deriving DecidableEq

/-- The trace of a run and the way it ended. -/
structure RunResult where
  trace : List Event
  exit : Exit
  deriving DecidableEq

/-- The requests of a trace, in order. -/
def requestsOf : List Event → List Request
  | [] => []
  | .request r :: es => r :: requestsOf es
  | _ :: es => requestsOf es

/-- The messages handed to `log.Fatalf` in a trace. -/
def fatalsOf : List Event → List String
  | [] => []
  | .logFatal m :: es => m :: fatalsOf es
  | _ :: es => fatalsOf es

/-- The messages printed with `log.Printf` / `log.Println` in a trace. -/
def logsOf : List Event → List String
  | [] => []
  | .logPrint m :: es => m :: logsOf es
  | _ :: es => logsOf es

/-! ## go-ldap constructors -/

/-- Go's `<` on the characters of two strings: lexicographic order. -/
def lessChars : List Char → List Char → Bool
  | _, [] => false
  | [], _ :: _ => true
  | a :: as, b :: bs => a.toNat < b.toNat || (a.toNat == b.toNat && lessChars as bs)

/-- Go's `a < b` on strings, the order used by `sort.Strings`. -/
def stringLess (a b : String) : Bool := lessChars a.data b.data

/-- The order in which `NewEntry` takes two keys of the map: `a` goes first
unless `b` is smaller. -/
def keyLE (a b : String × List String) : Prop := stringLess b.1 a.1 = false

instance : DecidableRel keyLE := fun a b => inferInstanceAs (Decidable (stringLess b.1 a.1 = false))

/-- The function `ldap.NewEntry(dn, attributes)`: the attributes of the map, in
increasing order of their names (`sort.Strings` on the keys). -/
def NewEntry (dn : String) (attributes : AttrMap) : Entry :=
  { DN := dn
    Attributes :=
      (attributes.insertionSort keyLE).map (fun a => { Name := a.1, Values := a.2 }) }

/-- The call `ldap.NewAddRequest(entry.DN, nil)` followed by
`addRequest.Attribute(attr.Name, attr.Values)` for each attribute of the entry
(ldap.go 112-116 and 137-140). -/
def addRequestOf (entry : Entry) : AddRequest :=
  { DN := entry.DN
    Attributes := entry.Attributes.map
      (fun attr => { AttrType := attr.Name, Vals := attr.Values }) }

/-- The call `ldap.NewModifyRequest(userEntry.DN, nil)` followed by
`modifyRequest.Replace(attr.Name, attr.Values)` for each attribute of the
entry (ldap.go 146-149). -/
def modifyRequestOf (entry : Entry) : ModifyRequest :=
  { DN := entry.DN
    Changes := entry.Attributes.map
      (fun attr => { Operation := .ReplaceAttribute, AttrType := attr.Name, Vals := attr.Values }) }

/-- The method `entry.GetAttributeValue(attributeName)`: the first value of the first
attribute with that name, or the empty string. -/
def GetAttributeValue (entry : Entry) (attributeName : String) : String :=
  match entry.Attributes.find? (fun attr => attr.Name == attributeName) with
  | some attr => attr.Values.headD ""
  | none => ""

/-! ## `ldapConnectAndBind` (ldap.go 47-62) -/

/-- Opens the connection and binds.  Returns the events and, on failure, the
text of the returned error. -/
def ldapConnectAndBind (d : Directory) (cfg : Config) : List Event × Option String :=
  let address := cfg.ldapHost ++ ":" ++ toString cfg.ldapPort
  match d.Dial "tcp" address with
  | some err => ([.dial "tcp" address], some ("Failed to connect to LDAP server: " ++ err.text))
  | none =>
    match d.Bind cfg.bindDN cfg.bindPassword with
    | some err =>
      ([.dial "tcp" address, .bind cfg.bindDN cfg.bindPassword, .close],
        some ("Failed to bind to LDAP server: " ++ err.text))
    | none => ([.dial "tcp" address, .bind cfg.bindDN cfg.bindPassword], none)

/-! ## `ldapCreate` (ldap.go 64-170) -/

/-- The events of a loop so far, and whether the run goes on (`false` after
`log.Fatalf`). -/
abbrev Step := List Event × Bool

/-- Puts events in front of the outcome of the rest of a loop. -/
def Step.after (evs : List Event) (s : Step) : Step := (evs ++ s.1, s.2)

/-- The loop adding the tree entries (ldap.go 111-122).  `hist` is the list of
requests already issued on the connection. -/
def treeLoop (d : Directory) : List Request → List Entry → Step
  | _, [] => ([], true)
  | hist, entry :: entries =>
    let addRequest := addRequestOf entry
    match d.Add hist addRequest with
    | some err =>
      ([.request (.add addRequest),
        .logFatal ("Failed to add entry to LDAP server: " ++ err.text)], false)
    | none =>
      Step.after [.request (.add addRequest)]
        (treeLoop d (hist ++ [.add addRequest]) entries)

/-- The entry built for a user (ldap.go 128-134).  `sprintf` is
`fmt.Sprintf` with one string operand. -/
def userEntryOf (sprintf : String → String → String) (userDNFormat : String)
    (person : Users) : Entry :=
  let userDN := sprintf userDNFormat person.Username
  NewEntry userDN
    [("objectClass", ["top", "person"]),
     ("cn", [person.User]),
     ("sn", [person.User]),
     ("userPassword", [person.Password])]

/-- The loop over the users (ldap.go 126-163). -/
def userLoop (d : Directory) (sprintf : String → String → String) (userDNFormat : String) :
    List Request → List Users → Step
  | _, [] => ([], true)
  | hist, person :: people =>
    let userEntry := userEntryOf sprintf userDNFormat person
    let addRequest := addRequestOf userEntry
    match d.Add hist addRequest with
    | some err =>
      if IsErrorWithCode err LDAPResultEntryAlreadyExists then
        let modifyRequest := modifyRequestOf userEntry
        let line :=
          match d.Modify (hist ++ [.add addRequest]) modifyRequest with
          | some err2 => "Failed to update user " ++ person.User ++ ": " ++ err2.text
          | none => "Successfully updated user " ++ person.User
        Step.after
          [.request (.add addRequest),
           .logPrint ("User " ++ person.User ++ " already exists, updating..."),
           .request (.modify modifyRequest),
           .logPrint line]
          (userLoop d sprintf userDNFormat
            (hist ++ [.add addRequest, .modify modifyRequest]) people)
      else
        ([.request (.add addRequest), .logFatal ("Failed to add user: " ++ err.text)], false)
    | none =>
      Step.after
        [.request (.add addRequest),
         .logPrint ("Successfully added user " ++ person.User)]
        (userLoop d sprintf userDNFormat (hist ++ [.add addRequest]) people)

/-- The `Run` closure of the `create` command, from the connection on
(ldap.go 97-163), for the decoded `tree` and `people`. -/
def ldapCreate (d : Directory) (cfg : Config) (sprintf : String → String → String)
    (userDNFormat : String) (tree : List Tree) (people : List Users) : RunResult :=
  match ldapConnectAndBind d cfg with
  | (conn, some err) => { trace := conn ++ [.logFatal ("Error: " ++ err)], exit := .osExit 1 }
  | (conn, none) =>
    let entries := tree.map (fun t => NewEntry t.DN t.Attributes)
    match treeLoop d [] entries with
    | (evs1, false) => { trace := conn ++ evs1, exit := .osExit 1 }
    | (evs1, true) =>
      match userLoop d sprintf userDNFormat (requestsOf evs1) people with
      | (evs2, false) =>
        { trace := conn ++ evs1 ++ [.logPrint "LDAP tree creation successful!"] ++ evs2,
          exit := .osExit 1 }
      | (evs2, true) =>
        { trace := conn ++ evs1 ++ [.logPrint "LDAP tree creation successful!"] ++ evs2
            ++ [.close],
          exit := .returned }

/-! ## `ldapList` (ldap.go 172-214) -/

/-- The search request of the `list` command (ldap.go 190-197). -/
def listSearchRequest (searchBase : String) : SearchRequest :=
  { BaseDN := searchBase
    Scope := ScopeWholeSubtree
    DerefAliases := NeverDerefAliases
    SizeLimit := 0
    TimeLimit := 0
    TypesOnly := false
    Filter := "(objectClass=*)"
    Attributes := ["dn", "objectClass"] }

/-- The `Run` closure of the `list` command, from the connection on
(ldap.go 182-209). -/
def ldapList (d : Directory) (cfg : Config) (searchBase : String) : RunResult :=
  match ldapConnectAndBind d cfg with
  | (conn, some err) => { trace := conn ++ [.logFatal ("Error: " ++ err)], exit := .osExit 1 }
  | (conn, none) =>
    let searchRequest := listSearchRequest searchBase
    match d.Search [] searchRequest with
    | .error err =>
      { trace := conn ++ [.request (.search searchRequest),
          .logFatal ("Failed to perform LDAP search: " ++ err.text)],
        exit := .osExit 1 }
    | .ok entries =>
      { trace := conn ++ [.request (.search searchRequest), .stdout "Directory Structure:"]
          ++ entries.map (fun entry =>
              .stdout (entry.DN ++ " (" ++ GetAttributeValue entry "objectClass" ++ ")"))
          ++ [.close],
        exit := .returned }

/-! ## `fmt.Sprintf` with one string operand -/

/-- The text `fmt` appends when the operand was not used by any verb. -/
def extraString (arg : List Char) : List Char :=
  "%!(EXTRA string=".data ++ arg ++ [')']

/-- The text `fmt` writes for a verb that has no operand left. -/
def missingString (verb : Char) : List Char :=
  ['%', '!', verb] ++ "(MISSING)".data

/-- Go's `doPrintf` for one string operand, on the rest of the format.  `used`
tells whether the operand was consumed already.  Handled: plain text, `%%`,
`%s`, `%v` and a `%` ending the format, with Go's texts for a missing or an
unused operand.  Every other directive (flags, width, precision, argument
index, other verbs) gives `none`: it is outside this model. -/
def doPrintf (arg : List Char) : Bool → List Char → Option (List Char)
  | used, [] => some (if used then [] else extraString arg)
  | used, c :: rest =>
    if c = '%' then
      match rest with
      | [] => some ("%!(NOVERB)".data ++ (if used then [] else extraString arg))
      | verb :: rest2 =>
        if verb = '%' then
          (doPrintf arg used rest2).map (fun out => '%' :: out)
        else if verb = 's' ∨ verb = 'v' then
          (doPrintf arg true rest2).map
            (fun out => (if used then missingString verb else arg) ++ out)
        else none
    else (doPrintf arg used rest).map (fun out => c :: out)

/-- Go's `fmt.Sprintf(format, arg)` for a string `arg`, where the format stays
inside the directives handled by `doPrintf`. -/
def GoSprintf (format arg : String) : Option String :=
  (doPrintf arg.data false format.data).map String.mk

/-- A formatter agreeing with Go, used to evaluate runs (the empty string
stands for results outside the model). -/
def sprintfModel (format arg : String) : String :=
  (GoSprintf format arg).getD ""

/-- The add request issued for a tree node (ldap.go 106, 112-116). -/
def treeAddRequest (t : Tree) : AddRequest :=
  addRequestOf (NewEntry t.DN t.Attributes)

/-- The add request issued for a user (ldap.go 128-140). -/
def userAddRequest (sprintf : String → String → String) (userDNFormat : String)
    (person : Users) : AddRequest :=
  addRequestOf (userEntryOf sprintf userDNFormat person)

/-- The modify request issued for a user whose entry exists (ldap.go 146-149). -/
def userModifyRequest (sprintf : String → String → String) (userDNFormat : String)
    (person : Users) : ModifyRequest :=
  modifyRequestOf (userEntryOf sprintf userDNFormat person)

/-- The events of a successful `ldapConnectAndBind`. -/
def connectEvents (cfg : Config) : List Event :=
  [.dial "tcp" (cfg.ldapHost ++ ":" ++ toString cfg.ldapPort),
   .bind cfg.bindDN cfg.bindPassword]

/-- The run connects and binds: `ldapConnectAndBind` returns a `nil` error. -/
def Connects (d : Directory) (cfg : Config) : Prop :=
  (ldapConnectAndBind d cfg).2 = none

instance (d : Directory) (cfg : Config) : Decidable (Connects d cfg) :=
  inferInstanceAs (Decidable ((ldapConnectAndBind d cfg).2 = none))

/-- The directory `d`, except that the modify `m` issued after the requests
`hist` is accepted. -/
def acceptModifyAt (d : Directory) (hist : List Request) (m : ModifyRequest) : Directory :=
  { d with Modify := fun h r => if h = hist ∧ r = m then none else d.Modify h r }

/-- The events that end a run after its last loop: the events of the loop,
then the deferred `l.Close()` when the loop was not cut short by
`log.Fatalf`. -/
def Step.finish (s : Step) : List Event := s.1 ++ (if s.2 then [.close] else [])

/-- The exit of a run after its last loop. -/
def Step.exit (s : Step) : Exit := if s.2 then .returned else .osExit 1

/-! ## Sample inputs -/

/-- A directory that accepts everything and holds no entry. -/
def acceptAll : Directory :=
  { Dial := fun _ _ => none
    Bind := fun _ _ => none
    Add := fun _ _ => none
    Modify := fun _ _ => none
    Search := fun _ _ => .ok [] }

/-- Connection settings for the examples. -/
def sampleConfig : Config :=
  { ldapHost := "localhost", ldapPort := 389, bindDN := "cn=admin", bindPassword := "secret" }

/-- The default value of the `--dn` flag (ldap.go 67). -/
def defaultUserDNFormat : String := "cn=%s,CN=Users,DC=global,DC=domain,DC=net"

/-- The user of the scenarios of the specification. -/
def alice : Users :=
  { User := "Alice A", Password := "p1", Ou := "X", Username := "alice" }

/-- A second user. -/
def bob : Users :=
  { User := "Bob B", Password := "p2", Ou := "Y", Username := "bob" }

/-- The node of the default `tree.json` (ldap.go 238-246). -/
def usersNode : Tree :=
  { DN := "CN=Users,DC=global,DC=domain,DC=net"
    Attributes := [("objectClass", ["top", "organizationalPerson"]), ("cn", ["Users"])] }

/-- Another tree node. -/
def opsNode : Tree :=
  { DN := "OU=Operations,DC=global,DC=domain,DC=net"
    Attributes := [("objectClass", ["top", "organizationalUnit"]), ("ou", ["Operations"])] }

/-- The error of an add for an entry that exists. -/
def alreadyExists : GoError :=
  { ldapCode := some 68, text := "LDAP Result Code 68 \"Entry Already Exists\": " }

/-- An "entry already exists" error whose text names the entry. -/
def existsNamingEntry : GoError :=
  { ldapCode := some 68, text := "exists: CN=Users,DC=global,DC=domain,DC=net" }

/-- The error of a request the bound account may not perform. -/
def insufficientAccess : GoError :=
  { ldapCode := some 50, text := "insufficient access" }

/-- A directory that accepts everything and rejects every add with `e`. -/
def rejectAdds (e : GoError) : Directory :=
  { acceptAll with Add := fun _ _ => some e }

/-- A directory where every entry exists already and modifies are rejected. -/
def existsRejectModify : Directory :=
  { acceptAll with
    Add := fun _ _ => some alreadyExists
    Modify := fun _ _ => some insufficientAccess }

/-- A directory where every entry exists already and modifies are accepted. -/
def existsAcceptModify : Directory :=
  { acceptAll with Add := fun _ _ => some alreadyExists }

/-- A directory that accepts the first request of the connection and rejects
every later add with "insufficient access". -/
def acceptFirstAddOnly : Directory :=
  { acceptAll with
    Add := fun hist _ => if hist.isEmpty then none else some insufficientAccess }

/-- A directory that accepts the first request of the connection; after it,
every add finds the entry existing and every modify is rejected. -/
def existsAfterTree : Directory :=
  { acceptAll with
    Add := fun hist _ => if hist.isEmpty then none else some alreadyExists
    Modify := fun _ _ => some insufficientAccess }

/-- A directory whose searches fail. -/
def searchFails : Directory :=
  { acceptAll with Search := fun _ _ => .error insufficientAccess }

/-! ## Traces -/

theorem requestsOf_append (a b : List Event) :
    requestsOf (a ++ b) = requestsOf a ++ requestsOf b := by
  induction a with
  | nil => rfl
  | cons e es ih => cases e <;> simp [requestsOf, ih]

theorem fatalsOf_append (a b : List Event) :
    fatalsOf (a ++ b) = fatalsOf a ++ fatalsOf b := by
  induction a with
  | nil => rfl
  | cons e es ih => cases e <;> simp [fatalsOf, ih]

theorem logsOf_append (a b : List Event) :
    logsOf (a ++ b) = logsOf a ++ logsOf b := by
  induction a with
  | nil => rfl
  | cons e es ih => cases e <;> simp [logsOf, ih]

theorem requestsOf_map_request (rs : List Request) :
    requestsOf (rs.map Event.request) = rs := by
  induction rs with
  | nil => rfl
  | cons r rs ih => simp [requestsOf, ih]

theorem fatalsOf_map_request (rs : List Request) :
    fatalsOf (rs.map Event.request) = [] := by
  induction rs with
  | nil => rfl
  | cons r rs ih => simp [fatalsOf, ih]

theorem requestsOf_nil : requestsOf [] = [] := rfl

theorem requestsOf_request (r : Request) (es : List Event) :
    requestsOf (.request r :: es) = r :: requestsOf es := rfl

theorem requestsOf_logPrint (m : String) (es : List Event) :
    requestsOf (.logPrint m :: es) = requestsOf es := rfl

theorem requestsOf_logFatal (m : String) (es : List Event) :
    requestsOf (.logFatal m :: es) = requestsOf es := rfl

theorem requestsOf_close (es : List Event) : requestsOf (.close :: es) = requestsOf es := rfl

theorem requestsOf_connectEvents (cfg : Config) : requestsOf (connectEvents cfg) = [] := rfl

theorem fatalsOf_connectEvents (cfg : Config) : fatalsOf (connectEvents cfg) = [] := rfl

theorem Step.after_after (a b : List Event) (s : Step) :
    Step.after a (Step.after b s) = Step.after (a ++ b) s := by
  simp [Step.after]

/-! ## Connecting -/

theorem ldapConnectAndBind_of_connects {d : Directory} {cfg : Config} (h : Connects d cfg) :
    ldapConnectAndBind d cfg = (connectEvents cfg, none) := by
  unfold Connects at h
  unfold ldapConnectAndBind at h ⊢
  cases hd : d.Dial "tcp" (cfg.ldapHost ++ ":" ++ toString cfg.ldapPort) with
  | some e => simp [hd] at h
  | none =>
    cases hb : d.Bind cfg.bindDN cfg.bindPassword with
    | some e => simp [hd, hb] at h
    | none => simp [connectEvents, hd]

/-! ## The run of `create`, from its loops -/

theorem ldapCreate_of_tree_fatal {d : Directory} {cfg : Config}
    (sprintf : String → String → String) (userDNFormat : String) {tree : List Tree}
    (people : List Users) {evs1 : List Event} (hc : Connects d cfg)
    (ht : treeLoop d [] (tree.map (fun t => NewEntry t.DN t.Attributes)) = (evs1, false)) :
    ldapCreate d cfg sprintf userDNFormat tree people
      = { trace := connectEvents cfg ++ evs1, exit := .osExit 1 } := by
  unfold ldapCreate
  rw [ldapConnectAndBind_of_connects hc]
  simp only [ht]

theorem ldapCreate_of_loops {d : Directory} {cfg : Config}
    {sprintf : String → String → String} {userDNFormat : String} {tree : List Tree}
    {people : List Users} {evs1 evs2 : List Event} {b : Bool} (hc : Connects d cfg)
    (ht : treeLoop d [] (tree.map (fun t => NewEntry t.DN t.Attributes)) = (evs1, true))
    (hu : userLoop d sprintf userDNFormat (requestsOf evs1) people = (evs2, b)) :
    ldapCreate d cfg sprintf userDNFormat tree people
      = { trace := connectEvents cfg ++ evs1 ++ [.logPrint "LDAP tree creation successful!"]
            ++ evs2 ++ (if b then [.close] else []),
          exit := if b then .returned else .osExit 1 } := by
  unfold ldapCreate
  rw [ldapConnectAndBind_of_connects hc]
  simp only [ht, hu]
  cases b <;> simp

theorem ldapCreate_returned {d : Directory} {cfg : Config}
    {sprintf : String → String → String} {userDNFormat : String} {tree : List Tree}
    {people : List Users}
    (h : (ldapCreate d cfg sprintf userDNFormat tree people).exit = .returned) :
    Connects d cfg ∧ ∃ evs1 evs2,
      treeLoop d [] (tree.map (fun t => NewEntry t.DN t.Attributes)) = (evs1, true) ∧
      userLoop d sprintf userDNFormat (requestsOf evs1) people = (evs2, true) := by
  by_cases hc : Connects d cfg
  · refine ⟨hc, ?_⟩
    generalize ht : treeLoop d [] (tree.map (fun t => NewEntry t.DN t.Attributes)) = r1
    obtain ⟨evs1, b1⟩ := r1
    cases b1 with
    | false => rw [ldapCreate_of_tree_fatal sprintf userDNFormat people hc ht] at h; simp at h
    | true =>
      generalize hu : userLoop d sprintf userDNFormat (requestsOf evs1) people = r2
      obtain ⟨evs2, b2⟩ := r2
      rw [ldapCreate_of_loops hc ht hu] at h
      cases b2 with
      | false => simp at h
      | true => exact ⟨evs1, evs2, rfl, hu⟩
  · exfalso
    unfold Connects at hc
    unfold ldapCreate at h
    generalize ldapConnectAndBind d cfg = r0 at hc h
    obtain ⟨conn, e⟩ := r0
    cases e with
    | none => exact hc rfl
    | some e => simp at h

/-! ## The tree loop -/

theorem treeLoop_take (d : Directory) :
    ∀ (tree : List Tree) (hist : List Request) (k : Nat),
      (∀ i t, i < k → tree[i]? = some t →
        d.Add (hist ++ (tree.take i).map (fun n => .add (treeAddRequest n)))
          (treeAddRequest t) = none) →
      treeLoop d hist (tree.map (fun t => NewEntry t.DN t.Attributes))
        = Step.after ((tree.take k).map (fun n => .request (.add (treeAddRequest n))))
            (treeLoop d (hist ++ (tree.take k).map (fun n => .add (treeAddRequest n)))
              ((tree.drop k).map (fun t => NewEntry t.DN t.Attributes))) := by
  intro tree
  induction tree with
  | nil => intro hist k _; simp [Step.after]
  | cons t ts ih =>
    intro hist k hacc
    cases k with
    | zero => simp [Step.after]
    | succ k =>
      have h0 : d.Add hist (treeAddRequest t) = none := by
        have := hacc 0 t (Nat.succ_pos k) (by simp)
        simpa using this
      have hrest : ∀ i t', i < k → ts[i]? = some t' →
          d.Add ((hist ++ [.add (treeAddRequest t)]) ++
            (ts.take i).map (fun n => .add (treeAddRequest n))) (treeAddRequest t') = none := by
        intro i t' hi hget
        have := hacc (i + 1) t' (Nat.succ_lt_succ hi) (by simpa using hget)
        simpa using this
      have step := ih (hist ++ [.add (treeAddRequest t)]) k hrest
      simp only [List.map_cons, List.take_succ_cons, List.drop_succ_cons]
      rw [treeLoop]
      simp only [treeAddRequest] at h0 step ⊢
      simp only [h0, step, Step.after, List.append_assoc, List.singleton_append, List.cons_append,
        List.nil_append]

theorem treeAddRequest_attributes_perm (t : Tree) :
    ((treeAddRequest t).Attributes.map (fun a => (a.AttrType, a.Vals))).Perm t.Attributes := by
  have hid : ((fun a : Attribute => (a.AttrType, a.Vals)) ∘
      (fun attr : EntryAttribute => ({ AttrType := attr.Name, Vals := attr.Values } : Attribute)) ∘
      (fun a : String × List String => ({ Name := a.1, Values := a.2 } : EntryAttribute))) = id := by
    funext a; rfl
  simp only [treeAddRequest, addRequestOf, NewEntry, List.map_map, hid, List.map_id]
  exact List.perm_insertionSort keyLE t.Attributes

/-- The run up to the rejected add of the node at index `k` (claims C2, C9). -/
theorem ldapCreate_tree_rejected {d : Directory} {cfg : Config}
    (sprintf : String → String → String) (userDNFormat : String) {tree : List Tree}
    (people : List Users) {k : Nat} {node : Tree} {err : GoError} (hc : Connects d cfg)
    (hnode : tree[k]? = some node)
    (hacc : ∀ i t, i < k → tree[i]? = some t →
      d.Add ((tree.take i).map (fun n => .add (treeAddRequest n))) (treeAddRequest t) = none)
    (hrej : d.Add ((tree.take k).map (fun n => .add (treeAddRequest n))) (treeAddRequest node)
      = some err) :
    ldapCreate d cfg sprintf userDNFormat tree people
      = { trace := connectEvents cfg
            ++ (tree.take (k + 1)).map (fun n => .request (.add (treeAddRequest n)))
            ++ [.logFatal ("Failed to add entry to LDAP server: " ++ err.text)],
          exit := .osExit 1 } := by
  have hk : k < tree.length := by
    rcases Nat.lt_or_ge k tree.length with h | h
    · exact h
    · rw [List.getElem?_eq_none h] at hnode; cases hnode
  have hdrop : tree.drop k = node :: tree.drop (k + 1) := by
    rw [List.drop_eq_getElem_cons hk]
    congr 1
    rw [List.getElem?_eq_getElem hk] at hnode
    exact Option.some.inj hnode
  have hloop := treeLoop_take d tree [] k (by simpa using hacc)
  have htake : tree.take (k + 1) = tree.take k ++ [node] := by
    rw [List.take_succ, hnode]; rfl
  have ht : treeLoop d [] (tree.map (fun t => NewEntry t.DN t.Attributes))
      = ((tree.take (k + 1)).map (fun n => .request (.add (treeAddRequest n)))
          ++ [.logFatal ("Failed to add entry to LDAP server: " ++ err.text)], false) := by
    rw [hloop, hdrop, List.map_cons, treeLoop, List.nil_append]
    simp only [treeAddRequest] at hrej ⊢
    rw [hrej]
    simp only [Step.after, htake, List.map_append, List.map_cons, List.map_nil,
      List.append_assoc, List.singleton_append]
  rw [ldapCreate_of_tree_fatal sprintf userDNFormat people hc ht]
  simp

/-- C1: when the directory accepts every add, the tree-creation step of `create`
issues one add request per node, in input order (the i-th request carries the
i-th node's DN and the node's attributes), nothing else, and then logs
"LDAP tree creation successful!". -/
theorem create_tree_adds_every_node (d : Directory) (cfg : Config)
    (sprintf : String → String → String) (userDNFormat : String) (tree : List Tree)
    (people : List Users) (hc : Connects d cfg) (hadd : ∀ hist r, d.Add hist r = none) :
    treeLoop d [] (tree.map (fun t => NewEntry t.DN t.Attributes))
        = (tree.map (fun n => .request (.add (treeAddRequest n))), true) ∧
      (∃ rest, (ldapCreate d cfg sprintf userDNFormat tree people).trace
        = connectEvents cfg ++ tree.map (fun n => .request (.add (treeAddRequest n)))
            ++ .logPrint "LDAP tree creation successful!" :: rest) ∧
      (tree.map (fun n => Request.add (treeAddRequest n))).length = tree.length ∧
      (∀ (i : Nat) (n : Tree), tree[i]? = some n →
        (tree.map (fun n => Request.add (treeAddRequest n)))[i]? = some (.add (treeAddRequest n)) ∧
        (treeAddRequest n).DN = n.DN ∧
        ((treeAddRequest n).Attributes.map (fun a => (a.AttrType, a.Vals))).Perm n.Attributes) := by
  have ht : treeLoop d [] (tree.map (fun t => NewEntry t.DN t.Attributes))
      = (tree.map (fun n => .request (.add (treeAddRequest n))), true) := by
    have := treeLoop_take d tree [] tree.length (fun i t _ _ => hadd _ _)
    simpa [Step.after, treeLoop] using this
  refine ⟨ht, ?_, by simp, ?_⟩
  · generalize hu : userLoop d sprintf userDNFormat
      (requestsOf (tree.map (fun n => .request (.add (treeAddRequest n))))) people = r
    obtain ⟨evs2, b⟩ := r
    rw [ldapCreate_of_loops hc ht hu]
    exact ⟨evs2 ++ (if b then [.close] else []), by simp⟩
  · intro i n hn
    refine ⟨by simp [List.getElem?_map, hn], rfl, treeAddRequest_attributes_perm n⟩

/-- C2: when the directory accepts the adds of the first `K - 1` tree nodes and
rejects the add of the `K`-th, the run issues exactly the add requests of the
first `K` nodes, in order, no other request (so none for the later nodes and
none for any user), and ends with `log.Fatalf`, exit status 1. -/
theorem create_stops_at_rejected_tree_add (d : Directory) (cfg : Config)
    (sprintf : String → String → String) (userDNFormat : String) (tree : List Tree)
    (people : List Users) (K : Nat) (node : Tree) (err : GoError) (hc : Connects d cfg)
    (hK : 1 ≤ K) (hnode : tree[K - 1]? = some node)
    (hacc : ∀ i t, i < K - 1 → tree[i]? = some t →
      d.Add ((tree.take i).map (fun n => .add (treeAddRequest n))) (treeAddRequest t) = none)
    (hrej : d.Add ((tree.take (K - 1)).map (fun n => .add (treeAddRequest n)))
      (treeAddRequest node) = some err) :
    K ≤ tree.length ∧
      requestsOf (ldapCreate d cfg sprintf userDNFormat tree people).trace
        = (tree.take K).map (fun n => .add (treeAddRequest n)) ∧
      (requestsOf (ldapCreate d cfg sprintf userDNFormat tree people).trace).length = K ∧
      (ldapCreate d cfg sprintf userDNFormat tree people).trace.getLast?
        = some (.logFatal ("Failed to add entry to LDAP server: " ++ err.text)) ∧
      (ldapCreate d cfg sprintf userDNFormat tree people).exit = .osExit 1 := by
  have hrun := ldapCreate_tree_rejected sprintf userDNFormat people hc hnode hacc hrej
  have hK1 : K - 1 + 1 = K := Nat.sub_add_cancel hK
  rw [hK1] at hrun
  have hlen : K ≤ tree.length := by
    rcases Nat.lt_or_ge (K - 1) tree.length with h | h
    · omega
    · rw [List.getElem?_eq_none h] at hnode; cases hnode
  have hreq : requestsOf (ldapCreate d cfg sprintf userDNFormat tree people).trace
      = (tree.take K).map (fun n => .add (treeAddRequest n)) := by
    rw [hrun]
    simp only [requestsOf_append, requestsOf_connectEvents, List.nil_append]
    have : (tree.take K).map (fun n => Event.request (.add (treeAddRequest n)))
        = ((tree.take K).map (fun n => Request.add (treeAddRequest n))).map Event.request := by
      rw [List.map_map]; rfl
    rw [this, requestsOf_map_request]
    simp [requestsOf]
  refine ⟨hlen, hreq, ?_, ?_, ?_⟩
  · rw [hreq]; simp [hlen]
  · rw [hrun]; simp
  · rw [hrun]

/-- Witness for C2: the default tree node followed by a second one, on a
directory that rejects every add; `K = 1`. -/
theorem create_stops_at_rejected_tree_add_witness :
    1 ≤ [usersNode, opsNode].length ∧
      requestsOf (ldapCreate (rejectAdds insufficientAccess) sampleConfig sprintfModel
          defaultUserDNFormat [usersNode, opsNode] [alice]).trace
        = ([usersNode, opsNode].take 1).map (fun n => .add (treeAddRequest n)) ∧
      (requestsOf (ldapCreate (rejectAdds insufficientAccess) sampleConfig sprintfModel
          defaultUserDNFormat [usersNode, opsNode] [alice]).trace).length = 1 ∧
      (ldapCreate (rejectAdds insufficientAccess) sampleConfig sprintfModel
          defaultUserDNFormat [usersNode, opsNode] [alice]).trace.getLast?
        = some (.logFatal ("Failed to add entry to LDAP server: " ++ insufficientAccess.text)) ∧
      (ldapCreate (rejectAdds insufficientAccess) sampleConfig sprintfModel
          defaultUserDNFormat [usersNode, opsNode] [alice]).exit = .osExit 1 :=
  create_stops_at_rejected_tree_add (rejectAdds insufficientAccess) sampleConfig sprintfModel
    defaultUserDNFormat [usersNode, opsNode] [alice] 1 usersNode insufficientAccess
    (by decide) (by decide) (by decide) (fun i _ hi _ => absurd hi (Nat.not_lt_zero i)) rfl

/-- Witness for C1: the default tree and one user on a directory that accepts
everything. -/
theorem create_tree_adds_every_node_witness :
    treeLoop acceptAll [] ([usersNode].map (fun t => NewEntry t.DN t.Attributes))
        = ([usersNode].map (fun n => .request (.add (treeAddRequest n))), true) ∧
      (∃ rest, (ldapCreate acceptAll sampleConfig sprintfModel defaultUserDNFormat
          [usersNode] [alice]).trace
        = connectEvents sampleConfig
            ++ [usersNode].map (fun n => .request (.add (treeAddRequest n)))
            ++ .logPrint "LDAP tree creation successful!" :: rest) ∧
      ([usersNode].map (fun n => Request.add (treeAddRequest n))).length = [usersNode].length ∧
      (∀ (i : Nat) (n : Tree), [usersNode][i]? = some n →
        ([usersNode].map (fun n => Request.add (treeAddRequest n)))[i]?
          = some (.add (treeAddRequest n)) ∧
        (treeAddRequest n).DN = n.DN ∧
        ((treeAddRequest n).Attributes.map (fun a => (a.AttrType, a.Vals))).Perm n.Attributes) :=
  create_tree_adds_every_node acceptAll sampleConfig sprintfModel defaultUserDNFormat
    [usersNode] [alice] (by decide) (fun _ _ => rfl)

/-! ## The user loop -/

theorem Step.after_eq_iff (a : List Event) (s : Step) (evs : List Event) (b : Bool) :
    Step.after a s = (evs, b) ↔ ∃ evs', s = (evs', b) ∧ evs = a ++ evs' := by
  obtain ⟨e, c⟩ := s
  constructor
  · intro h
    simp only [Step.after, Prod.mk.injEq] at h
    exact ⟨e, by rw [h.2], h.1.symm⟩
  · rintro ⟨evs', h1, h2⟩
    simp only [Prod.mk.injEq] at h1
    simp [Step.after, h1.1, h1.2, h2]

theorem userLoop_cons_added {d : Directory} (sprintf : String → String → String)
    (userDNFormat : String) {hist : List Request} {person : Users} (people : List Users)
    (h : d.Add hist (userAddRequest sprintf userDNFormat person) = none) :
    userLoop d sprintf userDNFormat hist (person :: people)
      = Step.after
          [.request (.add (userAddRequest sprintf userDNFormat person)),
           .logPrint ("Successfully added user " ++ person.User)]
          (userLoop d sprintf userDNFormat
            (hist ++ [.add (userAddRequest sprintf userDNFormat person)]) people) := by
  rw [userLoop]
  simp only [userAddRequest] at h ⊢
  simp only [h]

theorem userLoop_cons_exists {d : Directory} (sprintf : String → String → String)
    (userDNFormat : String) {hist : List Request} {person : Users} (people : List Users)
    {err : GoError} (h : d.Add hist (userAddRequest sprintf userDNFormat person) = some err)
    (hcode : IsErrorWithCode err LDAPResultEntryAlreadyExists = true) :
    userLoop d sprintf userDNFormat hist (person :: people)
      = Step.after
          [.request (.add (userAddRequest sprintf userDNFormat person)),
           .logPrint ("User " ++ person.User ++ " already exists, updating..."),
           .request (.modify (userModifyRequest sprintf userDNFormat person)),
           .logPrint
             (match d.Modify (hist ++ [.add (userAddRequest sprintf userDNFormat person)])
                (userModifyRequest sprintf userDNFormat person) with
              | some err2 => "Failed to update user " ++ person.User ++ ": " ++ err2.text
              | none => "Successfully updated user " ++ person.User)]
          (userLoop d sprintf userDNFormat
            (hist ++ [.add (userAddRequest sprintf userDNFormat person),
              .modify (userModifyRequest sprintf userDNFormat person)]) people) := by
  rw [userLoop]
  simp only [userAddRequest, userModifyRequest] at h ⊢
  simp only [h, hcode, if_true]

theorem userLoop_cons_fatal {d : Directory} (sprintf : String → String → String)
    (userDNFormat : String) {hist : List Request} {person : Users} (people : List Users)
    {err : GoError} (h : d.Add hist (userAddRequest sprintf userDNFormat person) = some err)
    (hcode : IsErrorWithCode err LDAPResultEntryAlreadyExists = false) :
    userLoop d sprintf userDNFormat hist (person :: people)
      = ([.request (.add (userAddRequest sprintf userDNFormat person)),
          .logFatal ("Failed to add user: " ++ err.text)], false) := by
  rw [userLoop]
  simp only [userAddRequest] at h ⊢
  simp [h, hcode]

theorem userLoop_append (d : Directory) (sprintf : String → String → String)
    (userDNFormat : String) (later : List Users) :
    ∀ (pre : List Users) (hist : List Request) (evs : List Event),
      userLoop d sprintf userDNFormat hist pre = (evs, true) →
      userLoop d sprintf userDNFormat hist (pre ++ later)
        = Step.after evs (userLoop d sprintf userDNFormat (hist ++ requestsOf evs) later) := by
  intro pre
  induction pre with
  | nil =>
    intro hist evs h
    simp only [userLoop, Prod.mk.injEq, and_true] at h
    subst h
    simp [Step.after, requestsOf]
  | cons p ps ih =>
    intro hist evs h
    rw [List.cons_append]
    cases hadd : d.Add hist (userAddRequest sprintf userDNFormat p) with
    | none =>
      rw [userLoop_cons_added sprintf userDNFormat _ hadd] at h ⊢
      obtain ⟨evs', h1, h2⟩ := (Step.after_eq_iff _ _ _ _).1 h
      rw [ih _ _ h1, Step.after_after, h2]
      simp [requestsOf_append, requestsOf]
    | some err =>
      cases hcode : IsErrorWithCode err LDAPResultEntryAlreadyExists with
      | false =>
        rw [userLoop_cons_fatal sprintf userDNFormat _ hadd hcode] at h
        simp at h
      | true =>
        rw [userLoop_cons_exists sprintf userDNFormat _ hadd hcode] at h ⊢
        obtain ⟨evs', h1, h2⟩ := (Step.after_eq_iff _ _ _ _).1 h
        rw [ih _ _ h1, Step.after_after, h2]
        simp [requestsOf_append, requestsOf]

/-- A run on `pre ++ later`, when the run on `pre` alone completes: it is the
run on `pre` with the closing of the connection replaced by the processing of
`later`. -/
theorem ldapCreate_append {d : Directory} {cfg : Config}
    {sprintf : String → String → String} {userDNFormat : String} {tree : List Tree}
    {pre : List Users} (later : List Users)
    (hpre : (ldapCreate d cfg sprintf userDNFormat tree pre).exit = .returned) :
    ldapCreate d cfg sprintf userDNFormat tree (pre ++ later)
      = { trace := (ldapCreate d cfg sprintf userDNFormat tree pre).trace.dropLast
            ++ (userLoop d sprintf userDNFormat
                (requestsOf (ldapCreate d cfg sprintf userDNFormat tree pre).trace) later).1
            ++ (if (userLoop d sprintf userDNFormat
                (requestsOf (ldapCreate d cfg sprintf userDNFormat tree pre).trace) later).2
                then [.close] else []),
          exit := if (userLoop d sprintf userDNFormat
                (requestsOf (ldapCreate d cfg sprintf userDNFormat tree pre).trace) later).2
                then .returned else .osExit 1 } := by
  obtain ⟨hc, evs1, evs2, ht, hu⟩ := ldapCreate_returned hpre
  have hrun := ldapCreate_of_loops hc ht hu
  have hreq : requestsOf (ldapCreate d cfg sprintf userDNFormat tree pre).trace
      = requestsOf evs1 ++ requestsOf evs2 := by
    rw [hrun]
    simp [requestsOf_append, requestsOf_connectEvents, requestsOf]
  have hdrop : (ldapCreate d cfg sprintf userDNFormat tree pre).trace.dropLast
      = connectEvents cfg ++ evs1 ++ [.logPrint "LDAP tree creation successful!"] ++ evs2 := by
    rw [hrun]
    simp only [if_true]
    rw [List.dropLast_concat]
  have happ := userLoop_append d sprintf userDNFormat later pre _ _ hu
  rw [hreq, hdrop]
  generalize hl : userLoop d sprintf userDNFormat (requestsOf evs1 ++ requestsOf evs2) later = r
    at happ
  obtain ⟨evs3, b⟩ := r
  rw [ldapCreate_of_loops hc ht happ]
  simp [Step.after]

theorem userLoop_all_added {d : Directory} (sprintf : String → String → String)
    (userDNFormat : String) (hadd : ∀ hist r, d.Add hist r = none) :
    ∀ (people : List Users) (hist : List Request),
      userLoop d sprintf userDNFormat hist people
        = (people.flatMap (fun p =>
            [.request (.add (userAddRequest sprintf userDNFormat p)),
             .logPrint ("Successfully added user " ++ p.User)]), true) := by
  intro people
  induction people with
  | nil => intro hist; rfl
  | cons p ps ih =>
    intro hist
    rw [userLoop_cons_added sprintf userDNFormat ps (hadd _ _), ih]
    simp [Step.after]

theorem userLoop_all_existing {d : Directory} (sprintf : String → String → String)
    (userDNFormat : String)
    (hadd : ∀ hist r, ∃ e, d.Add hist r = some e ∧
      IsErrorWithCode e LDAPResultEntryAlreadyExists = true) :
    ∀ (people : List Users) (hist : List Request),
      (userLoop d sprintf userDNFormat hist people).2 = true ∧
      requestsOf (userLoop d sprintf userDNFormat hist people).1
        = people.flatMap (fun p =>
            [.add (userAddRequest sprintf userDNFormat p),
             .modify (userModifyRequest sprintf userDNFormat p)]) := by
  intro people
  induction people with
  | nil => intro hist; exact ⟨rfl, rfl⟩
  | cons p ps ih =>
    intro hist
    obtain ⟨e, he, hcode⟩ := hadd hist (userAddRequest sprintf userDNFormat p)
    rw [userLoop_cons_exists sprintf userDNFormat ps he hcode]
    obtain ⟨h2, hreq⟩ := ih (hist ++ [.add (userAddRequest sprintf userDNFormat p),
      .modify (userModifyRequest sprintf userDNFormat p)])
    refine ⟨by simpa [Step.after] using h2, ?_⟩
    simp [Step.after, requestsOf, hreq]

theorem userLoop_all_updated {d : Directory} (sprintf : String → String → String)
    (userDNFormat : String)
    (hadd : ∀ hist r, ∃ e, d.Add hist r = some e ∧
      IsErrorWithCode e LDAPResultEntryAlreadyExists = true)
    (hmod : ∀ hist m, d.Modify hist m = none) :
    ∀ (people : List Users) (hist : List Request),
      userLoop d sprintf userDNFormat hist people
        = (people.flatMap (fun p =>
            [.request (.add (userAddRequest sprintf userDNFormat p)),
             .logPrint ("User " ++ p.User ++ " already exists, updating..."),
             .request (.modify (userModifyRequest sprintf userDNFormat p)),
             .logPrint ("Successfully updated user " ++ p.User)]), true) := by
  intro people
  induction people with
  | nil => intro hist; rfl
  | cons p ps ih =>
    intro hist
    obtain ⟨e, he, hcode⟩ := hadd hist (userAddRequest sprintf userDNFormat p)
    rw [userLoop_cons_exists sprintf userDNFormat ps he hcode, ih, hmod]
    simp [Step.after]

theorem logsOf_flatMap_added (people : List Users) (f : Users → Request) :
    logsOf (people.flatMap (fun p =>
        [.request (f p), .logPrint ("Successfully added user " ++ p.User)]))
      = people.map (fun p => "Successfully added user " ++ p.User) := by
  induction people with
  | nil => rfl
  | cons p ps ih =>
    rw [List.flatMap_cons, logsOf_append, ih]; rfl

theorem requestsOf_flatMap_added (people : List Users) (f : Users → Request) :
    requestsOf (people.flatMap (fun p =>
        [.request (f p), .logPrint ("Successfully added user " ++ p.User)]))
      = people.map f := by
  induction people with
  | nil => rfl
  | cons p ps ih =>
    rw [List.flatMap_cons, requestsOf_append, ih]; rfl

theorem logsOf_flatMap_updated (people : List Users) (f g : Users → Request) :
    logsOf (people.flatMap (fun p =>
        [.request (f p), .logPrint ("User " ++ p.User ++ " already exists, updating..."),
         .request (g p), .logPrint ("Successfully updated user " ++ p.User)]))
      = people.flatMap (fun p =>
          ["User " ++ p.User ++ " already exists, updating...",
           "Successfully updated user " ++ p.User]) := by
  induction people with
  | nil => rfl
  | cons p ps ih =>
    rw [List.flatMap_cons, List.flatMap_cons, logsOf_append, ih]; rfl

/-- C3: when the directory accepts every add, the user loop issues one add
request per user, in input order, and nothing else (no modify request), logs
"Successfully added user" for every user, and goes on to the end; the whole
run then is the connection, the tree adds, the success line, these events and
the closing of the connection. -/
theorem sync_users_all_created (d : Directory) (cfg : Config)
    (sprintf : String → String → String) (userDNFormat : String) (tree : List Tree)
    (people : List Users) (hist : List Request) (hadd : ∀ hist r, d.Add hist r = none) :
    userLoop d sprintf userDNFormat hist people
        = (people.flatMap (fun p =>
            [.request (.add (userAddRequest sprintf userDNFormat p)),
             .logPrint ("Successfully added user " ++ p.User)]), true) ∧
      requestsOf (userLoop d sprintf userDNFormat hist people).1
        = people.map (fun p => .add (userAddRequest sprintf userDNFormat p)) ∧
      (requestsOf (userLoop d sprintf userDNFormat hist people).1).length = people.length ∧
      (∀ m, Request.modify m ∉ requestsOf (userLoop d sprintf userDNFormat hist people).1) ∧
      logsOf (userLoop d sprintf userDNFormat hist people).1
        = people.map (fun p => "Successfully added user " ++ p.User) ∧
      (Connects d cfg →
        ldapCreate d cfg sprintf userDNFormat tree people
          = { trace := connectEvents cfg
                ++ tree.map (fun n => .request (.add (treeAddRequest n)))
                ++ [.logPrint "LDAP tree creation successful!"]
                ++ people.flatMap (fun p =>
                    [.request (.add (userAddRequest sprintf userDNFormat p)),
                     .logPrint ("Successfully added user " ++ p.User)])
                ++ [.close],
              exit := .returned }) := by
  have hloop := userLoop_all_added sprintf userDNFormat hadd
  have hreq : requestsOf (userLoop d sprintf userDNFormat hist people).1
      = people.map (fun p => .add (userAddRequest sprintf userDNFormat p)) := by
    rw [hloop]
    exact requestsOf_flatMap_added people (fun p => .add (userAddRequest sprintf userDNFormat p))
  refine ⟨hloop people hist, hreq, ?_, ?_, ?_, ?_⟩
  · rw [hreq]; simp
  · intro m hm
    rw [hreq] at hm
    simp at hm
  · rw [hloop]
    exact logsOf_flatMap_added people _
  · intro hc
    have ht : treeLoop d [] (tree.map (fun t => NewEntry t.DN t.Attributes))
        = (tree.map (fun n => .request (.add (treeAddRequest n))), true) := by
      have := treeLoop_take d tree [] tree.length (fun i t _ _ => hadd _ _)
      simpa [Step.after, treeLoop] using this
    rw [ldapCreate_of_loops hc ht (hloop people _)]
    simp

/-- Witness for C3: two users on a directory that accepts everything. -/
theorem sync_users_all_created_witness :
    userLoop acceptAll sprintfModel defaultUserDNFormat [] [alice, bob]
        = ([alice, bob].flatMap (fun p =>
            [.request (.add (userAddRequest sprintfModel defaultUserDNFormat p)),
             .logPrint ("Successfully added user " ++ p.User)]), true) ∧
      requestsOf (userLoop acceptAll sprintfModel defaultUserDNFormat [] [alice, bob]).1
        = [alice, bob].map (fun p => .add (userAddRequest sprintfModel defaultUserDNFormat p)) ∧
      (requestsOf (userLoop acceptAll sprintfModel defaultUserDNFormat [] [alice, bob]).1).length
        = [alice, bob].length ∧
      (∀ m, Request.modify m ∉
        requestsOf (userLoop acceptAll sprintfModel defaultUserDNFormat [] [alice, bob]).1) ∧
      logsOf (userLoop acceptAll sprintfModel defaultUserDNFormat [] [alice, bob]).1
        = [alice, bob].map (fun p => "Successfully added user " ++ p.User) ∧
      ldapCreate acceptAll sampleConfig sprintfModel defaultUserDNFormat [usersNode] [alice, bob]
        = { trace := connectEvents sampleConfig
              ++ [usersNode].map (fun n => .request (.add (treeAddRequest n)))
              ++ [.logPrint "LDAP tree creation successful!"]
              ++ [alice, bob].flatMap (fun p =>
                  [.request (.add (userAddRequest sprintfModel defaultUserDNFormat p)),
                   .logPrint ("Successfully added user " ++ p.User)])
              ++ [.close],
            exit := .returned } :=
  have h := sync_users_all_created acceptAll sampleConfig sprintfModel defaultUserDNFormat
    [usersNode] [alice, bob] [] (fun _ _ => rfl)
  ⟨h.1, h.2.1, h.2.2.1, h.2.2.2.1, h.2.2.2.2.1, h.2.2.2.2.2 (by decide)⟩

/-- C4, amended: when the directory answers "entry already exists" to every
add, the user loop issues exactly two requests per user, in input order: the
add, immediately followed by a modify on the same DN; it goes on to the end.
When the directory also accepts every modify, every user is logged as
"Successfully updated". -/
theorem sync_users_all_existing (d : Directory) (sprintf : String → String → String)
    (userDNFormat : String) (people : List Users) (hist : List Request)
    (hadd : ∀ hist r, ∃ e, d.Add hist r = some e ∧
      IsErrorWithCode e LDAPResultEntryAlreadyExists = true) :
    (userLoop d sprintf userDNFormat hist people).2 = true ∧
      requestsOf (userLoop d sprintf userDNFormat hist people).1
        = people.flatMap (fun p =>
            [.add (userAddRequest sprintf userDNFormat p),
             .modify (userModifyRequest sprintf userDNFormat p)]) ∧
      (requestsOf (userLoop d sprintf userDNFormat hist people).1).length = 2 * people.length ∧
      (∀ p, (userModifyRequest sprintf userDNFormat p).DN
        = (userAddRequest sprintf userDNFormat p).DN) ∧
      ((∀ hist m, d.Modify hist m = none) →
        logsOf (userLoop d sprintf userDNFormat hist people).1
          = people.flatMap (fun p =>
              ["User " ++ p.User ++ " already exists, updating...",
               "Successfully updated user " ++ p.User])) := by
  obtain ⟨h2, hreq⟩ := userLoop_all_existing sprintf userDNFormat hadd people hist
  refine ⟨h2, hreq, ?_, fun _ => rfl, ?_⟩
  · rw [hreq]
    clear hreq h2
    induction people with
    | nil => rfl
    | cons p ps ih => simp only [List.flatMap_cons, List.length_append, ih]; simp; omega
  · intro hmod
    rw [userLoop_all_updated sprintf userDNFormat hadd hmod]
    exact logsOf_flatMap_updated people _ _

/-- Witness for C4 (amended): two users, every entry exists. -/
theorem sync_users_all_existing_witness :
    (userLoop existsAcceptModify sprintfModel defaultUserDNFormat [] [alice, bob]).2 = true ∧
      requestsOf (userLoop existsAcceptModify sprintfModel defaultUserDNFormat [] [alice, bob]).1
        = [alice, bob].flatMap (fun p =>
            [.add (userAddRequest sprintfModel defaultUserDNFormat p),
             .modify (userModifyRequest sprintfModel defaultUserDNFormat p)]) ∧
      (requestsOf
        (userLoop existsAcceptModify sprintfModel defaultUserDNFormat [] [alice, bob]).1).length
        = 2 * [alice, bob].length ∧
      (∀ p, (userModifyRequest sprintfModel defaultUserDNFormat p).DN
        = (userAddRequest sprintfModel defaultUserDNFormat p).DN) ∧
      logsOf (userLoop existsAcceptModify sprintfModel defaultUserDNFormat [] [alice, bob]).1
        = [alice, bob].flatMap (fun p =>
            ["User " ++ p.User ++ " already exists, updating...",
             "Successfully updated user " ++ p.User]) :=
  have h := sync_users_all_existing existsAcceptModify sprintfModel defaultUserDNFormat
    [alice, bob] [] (fun _ _ => ⟨alreadyExists, rfl, rfl⟩)
  ⟨h.1, h.2.1, h.2.2.1, h.2.2.2.1, h.2.2.2.2 (fun _ _ => rfl)⟩

/-- C4 as stated fails: the directory answers "entry already exists" to every
add, yet the user is not classified as updated, because the modify is
rejected. -/
theorem sync_users_existing_not_updated :
    (∀ hist r, ∃ e, existsRejectModify.Add hist r = some e ∧
        IsErrorWithCode e LDAPResultEntryAlreadyExists = true) ∧
      logsOf (userLoop existsRejectModify sprintfModel defaultUserDNFormat [] [alice]).1
        = ["User Alice A already exists, updating...",
           "Failed to update user Alice A: insufficient access"] ∧
      "Successfully updated user Alice A" ∉
        logsOf (userLoop existsRejectModify sprintfModel defaultUserDNFormat [] [alice]).1 :=
  ⟨fun _ _ => ⟨alreadyExists, rfl, rfl⟩, by decide, by decide⟩

theorem userEntryOf_eq (sprintf : String → String → String) (userDNFormat : String)
    (person : Users) :
    userEntryOf sprintf userDNFormat person
      = { DN := sprintf userDNFormat person.Username
          Attributes :=
            [{ Name := "cn", Values := [person.User] },
             { Name := "objectClass", Values := ["top", "person"] },
             { Name := "sn", Values := [person.User] },
             { Name := "userPassword", Values := [person.Password] }] } := by
  simp [userEntryOf, NewEntry, List.insertionSort, List.orderedInsert, keyLE, stringLess,
    lessChars]

theorem userAddRequest_eq (sprintf : String → String → String) (userDNFormat : String)
    (person : Users) :
    userAddRequest sprintf userDNFormat person
      = { DN := sprintf userDNFormat person.Username
          Attributes :=
            [{ AttrType := "cn", Vals := [person.User] },
             { AttrType := "objectClass", Vals := ["top", "person"] },
             { AttrType := "sn", Vals := [person.User] },
             { AttrType := "userPassword", Vals := [person.Password] }] } := by
  rw [userAddRequest, userEntryOf_eq]
  rfl

theorem userModifyRequest_eq (sprintf : String → String → String) (userDNFormat : String)
    (person : Users) :
    userModifyRequest sprintf userDNFormat person
      = { DN := sprintf userDNFormat person.Username
          Changes :=
            [{ Operation := .ReplaceAttribute, AttrType := "cn", Vals := [person.User] },
             { Operation := .ReplaceAttribute, AttrType := "objectClass",
               Vals := ["top", "person"] },
             { Operation := .ReplaceAttribute, AttrType := "sn", Vals := [person.User] },
             { Operation := .ReplaceAttribute, AttrType := "userPassword",
               Vals := [person.Password] }] } := by
  rw [userModifyRequest, userEntryOf_eq]
  rfl

/-- C5 as stated fails: for the user of the scenarios, on a directory where
the entry exists, the modify request replaces four attributes, `objectClass`
among them. -/
theorem fallback_modify_touches_objectClass :
    requestsOf (userLoop existsAcceptModify sprintfModel defaultUserDNFormat [] [alice]).1
        = [.add (userAddRequest sprintfModel defaultUserDNFormat alice),
           .modify
             { DN := "cn=alice,CN=Users,DC=global,DC=domain,DC=net"
               Changes :=
                 [{ Operation := .ReplaceAttribute, AttrType := "cn", Vals := ["Alice A"] },
                  { Operation := .ReplaceAttribute, AttrType := "objectClass",
                    Vals := ["top", "person"] },
                  { Operation := .ReplaceAttribute, AttrType := "sn", Vals := ["Alice A"] },
                  { Operation := .ReplaceAttribute, AttrType := "userPassword",
                    Vals := ["p1"] }] }] ∧
      "objectClass" ∈
        (userModifyRequest sprintfModel defaultUserDNFormat alice).Changes.map (fun c => c.AttrType)
      ∧ (userModifyRequest sprintfModel defaultUserDNFormat alice).Changes.map (fun c => c.AttrType)
        ≠ ["cn", "sn", "userPassword"] := by
  refine ⟨by decide, by decide, by decide⟩

/-- C5, amended: for a user whose add fails with "entry already exists", the
next request is a modify on the same DN that replaces exactly the attributes
of the add request: `cn = [displayName]`, `objectClass = ["top", "person"]`,
`sn = [displayName]` and `userPassword = [password]`. -/
theorem fallback_modify_replaces_entry_attributes (d : Directory)
    (sprintf : String → String → String) (userDNFormat : String) (hist : List Request)
    (person : Users) (people : List Users) (err : GoError)
    (hadd : d.Add hist (userAddRequest sprintf userDNFormat person) = some err)
    (hcode : IsErrorWithCode err LDAPResultEntryAlreadyExists = true) :
    (requestsOf (userLoop d sprintf userDNFormat hist (person :: people)).1).take 2
        = [.add (userAddRequest sprintf userDNFormat person),
           .modify (userModifyRequest sprintf userDNFormat person)] ∧
      (userModifyRequest sprintf userDNFormat person).DN
        = (userAddRequest sprintf userDNFormat person).DN ∧
      (userModifyRequest sprintf userDNFormat person).Changes
        = [{ Operation := .ReplaceAttribute, AttrType := "cn", Vals := [person.User] },
           { Operation := .ReplaceAttribute, AttrType := "objectClass",
             Vals := ["top", "person"] },
           { Operation := .ReplaceAttribute, AttrType := "sn", Vals := [person.User] },
           { Operation := .ReplaceAttribute, AttrType := "userPassword",
             Vals := [person.Password] }] ∧
      (userModifyRequest sprintf userDNFormat person).Changes.map
          (fun c => (c.AttrType, c.Vals))
        = (userAddRequest sprintf userDNFormat person).Attributes.map
          (fun a => (a.AttrType, a.Vals)) := by
  refine ⟨?_, rfl, ?_, ?_⟩
  · rw [userLoop_cons_exists sprintf userDNFormat people hadd hcode]
    simp [Step.after, requestsOf]
  · rw [userModifyRequest_eq]
  · rw [userModifyRequest_eq, userAddRequest_eq]
    rfl

/-- Witness for C5 (amended): the user of the scenarios, whose entry exists. -/
theorem fallback_modify_replaces_entry_attributes_witness :
    (requestsOf
        (userLoop existsAcceptModify sprintfModel defaultUserDNFormat [] (alice :: [bob])).1).take 2
        = [.add (userAddRequest sprintfModel defaultUserDNFormat alice),
           .modify (userModifyRequest sprintfModel defaultUserDNFormat alice)] ∧
      (userModifyRequest sprintfModel defaultUserDNFormat alice).DN
        = (userAddRequest sprintfModel defaultUserDNFormat alice).DN ∧
      (userModifyRequest sprintfModel defaultUserDNFormat alice).Changes
        = [{ Operation := .ReplaceAttribute, AttrType := "cn", Vals := [alice.User] },
           { Operation := .ReplaceAttribute, AttrType := "objectClass",
             Vals := ["top", "person"] },
           { Operation := .ReplaceAttribute, AttrType := "sn", Vals := [alice.User] },
           { Operation := .ReplaceAttribute, AttrType := "userPassword",
             Vals := [alice.Password] }] ∧
      (userModifyRequest sprintfModel defaultUserDNFormat alice).Changes.map
          (fun c => (c.AttrType, c.Vals))
        = (userAddRequest sprintfModel defaultUserDNFormat alice).Attributes.map
          (fun a => (a.AttrType, a.Vals)) :=
  fallback_modify_replaces_entry_attributes existsAcceptModify sprintfModel defaultUserDNFormat
    [] alice [bob] alreadyExists rfl rfl

/-- C7: when the run on the users before the j-th completes and the add for
the j-th user fails with an error other than "entry already exists", the run
is the run on the earlier users (without the closing of the connection)
followed by that one add request and `log.Fatalf`: no modify for that user, no
request for any later user, exit status 1. -/
theorem create_aborts_on_other_add_error (d : Directory) (cfg : Config)
    (sprintf : String → String → String) (userDNFormat : String) (tree : List Tree)
    (pre : List Users) (person : Users) (later : List Users) (err : GoError)
    (hpre : (ldapCreate d cfg sprintf userDNFormat tree pre).exit = .returned)
    (hadd : d.Add (requestsOf (ldapCreate d cfg sprintf userDNFormat tree pre).trace)
      (userAddRequest sprintf userDNFormat person) = some err)
    (hcode : IsErrorWithCode err LDAPResultEntryAlreadyExists = false) :
    ldapCreate d cfg sprintf userDNFormat tree (pre ++ person :: later)
        = { trace := (ldapCreate d cfg sprintf userDNFormat tree pre).trace.dropLast
              ++ [.request (.add (userAddRequest sprintf userDNFormat person)),
                  .logFatal ("Failed to add user: " ++ err.text)],
            exit := .osExit 1 } ∧
      requestsOf (ldapCreate d cfg sprintf userDNFormat tree (pre ++ person :: later)).trace
        = requestsOf (ldapCreate d cfg sprintf userDNFormat tree pre).trace
            ++ [.add (userAddRequest sprintf userDNFormat person)] := by
  have hrun : ldapCreate d cfg sprintf userDNFormat tree (pre ++ person :: later)
      = { trace := (ldapCreate d cfg sprintf userDNFormat tree pre).trace.dropLast
            ++ [.request (.add (userAddRequest sprintf userDNFormat person)),
                .logFatal ("Failed to add user: " ++ err.text)],
          exit := .osExit 1 } := by
    rw [ldapCreate_append (person :: later) hpre,
      userLoop_cons_fatal sprintf userDNFormat later hadd hcode]
    simp
  refine ⟨hrun, ?_⟩
  rw [hrun]
  obtain ⟨hc, evs1, evs2, ht, hu⟩ := ldapCreate_returned hpre
  rw [ldapCreate_of_loops hc ht hu]
  simp only [if_true]
  rw [List.dropLast_concat]
  simp [requestsOf_append, requestsOf, requestsOf_connectEvents]

/-- Witness for C7: the tree is created, then the add of the first user is
rejected with "insufficient access". -/
theorem create_aborts_on_other_add_error_witness :
    ldapCreate acceptFirstAddOnly sampleConfig sprintfModel defaultUserDNFormat [usersNode]
        ([] ++ alice :: [bob])
        = { trace := (ldapCreate acceptFirstAddOnly sampleConfig sprintfModel defaultUserDNFormat
                [usersNode] []).trace.dropLast
              ++ [.request (.add (userAddRequest sprintfModel defaultUserDNFormat alice)),
                  .logFatal ("Failed to add user: " ++ insufficientAccess.text)],
            exit := .osExit 1 } ∧
      requestsOf (ldapCreate acceptFirstAddOnly sampleConfig sprintfModel defaultUserDNFormat
          [usersNode] ([] ++ alice :: [bob])).trace
        = requestsOf (ldapCreate acceptFirstAddOnly sampleConfig sprintfModel defaultUserDNFormat
            [usersNode] []).trace
            ++ [.add (userAddRequest sprintfModel defaultUserDNFormat alice)] :=
  create_aborts_on_other_add_error acceptFirstAddOnly sampleConfig sprintfModel
    defaultUserDNFormat [usersNode] [] alice [bob] insufficientAccess (by decide) (by decide)
    (by decide)

/-- C9 as stated fails: two runs whose tree add is rejected for nodes with
different DNs report the same fatal message, and the message does not contain
the DN of the failing node. -/
theorem tree_fatal_message_omits_dn :
    fatalsOf (ldapCreate (rejectAdds insufficientAccess) sampleConfig sprintfModel
        defaultUserDNFormat [usersNode] []).trace
        = ["Failed to add entry to LDAP server: insufficient access"] ∧
      fatalsOf (ldapCreate (rejectAdds insufficientAccess) sampleConfig sprintfModel
        defaultUserDNFormat [opsNode] []).trace
        = ["Failed to add entry to LDAP server: insufficient access"] ∧
      usersNode.DN ≠ opsNode.DN ∧
      ¬ (usersNode.DN.data <:+: "Failed to add entry to LDAP server: insufficient access".data) := by
  refine ⟨by decide, by decide, by decide, by decide⟩

/-- The fatal messages of a run whose tree add is rejected at index `k`. -/
theorem fatalsOf_tree_rejected {d : Directory} {cfg : Config}
    (sprintf : String → String → String) (userDNFormat : String) {tree : List Tree}
    (people : List Users) {k : Nat} {node : Tree} {err : GoError} (hc : Connects d cfg)
    (hnode : tree[k]? = some node)
    (hacc : ∀ i t, i < k → tree[i]? = some t →
      d.Add ((tree.take i).map (fun n => .add (treeAddRequest n))) (treeAddRequest t) = none)
    (hrej : d.Add ((tree.take k).map (fun n => .add (treeAddRequest n)))
      (treeAddRequest node) = some err) :
    fatalsOf (ldapCreate d cfg sprintf userDNFormat tree people).trace
      = ["Failed to add entry to LDAP server: " ++ err.text] := by
  rw [ldapCreate_tree_rejected sprintf userDNFormat people hc hnode hacc hrej]
  have : (tree.take (k + 1)).map (fun n => Event.request (.add (treeAddRequest n)))
      = ((tree.take (k + 1)).map (fun n => Request.add (treeAddRequest n))).map Event.request := by
    rw [List.map_map]; rfl
  simp only [fatalsOf_append, fatalsOf_connectEvents, this, fatalsOf_map_request]
  rfl

/-- C9, amended: when a tree add is rejected, the run reports exactly one
fatal message, "Failed to add entry to LDAP server: " followed by the text of
the underlying error.  The message is determined by the error alone: every
other run whose tree add is rejected with the same error, whatever its
directory, tree and failing node are, reports the same message. -/
theorem tree_fatal_message_is_cause (d : Directory) (cfg : Config)
    (sprintf : String → String → String) (userDNFormat : String) (tree : List Tree)
    (people : List Users) (k : Nat) (node : Tree) (err : GoError) (hc : Connects d cfg)
    (hnode : tree[k]? = some node)
    (hacc : ∀ i t, i < k → tree[i]? = some t →
      d.Add ((tree.take i).map (fun n => .add (treeAddRequest n))) (treeAddRequest t) = none)
    (hrej : d.Add ((tree.take k).map (fun n => .add (treeAddRequest n)))
      (treeAddRequest node) = some err) :
    fatalsOf (ldapCreate d cfg sprintf userDNFormat tree people).trace
        = ["Failed to add entry to LDAP server: " ++ err.text] ∧
      (∀ (d2 : Directory) (cfg2 : Config) (sprintf2 : String → String → String)
          (userDNFormat2 : String) (tree2 : List Tree) (people2 : List Users) (k2 : Nat)
          (node2 : Tree),
        Connects d2 cfg2 →
        tree2[k2]? = some node2 →
        (∀ i t, i < k2 → tree2[i]? = some t →
          d2.Add ((tree2.take i).map (fun n => .add (treeAddRequest n))) (treeAddRequest t)
            = none) →
        d2.Add ((tree2.take k2).map (fun n => .add (treeAddRequest n))) (treeAddRequest node2)
          = some err →
        fatalsOf (ldapCreate d2 cfg2 sprintf2 userDNFormat2 tree2 people2).trace
          = fatalsOf (ldapCreate d cfg sprintf userDNFormat tree people).trace) := by
  have h1 := fatalsOf_tree_rejected sprintf userDNFormat people hc hnode hacc hrej
  refine ⟨h1, ?_⟩
  intro d2 cfg2 sprintf2 userDNFormat2 tree2 people2 k2 node2 hc2 hnode2 hacc2 hrej2
  rw [h1, fatalsOf_tree_rejected sprintf2 userDNFormat2 people2 hc2 hnode2 hacc2 hrej2]

/-- Witness for C9 (amended): the second node of a two-node tree is rejected;
the run where the first node of another tree is rejected with the same error
reports the same message. -/
theorem tree_fatal_message_is_cause_witness :
    fatalsOf (ldapCreate acceptFirstAddOnly sampleConfig sprintfModel defaultUserDNFormat
        [usersNode, opsNode] [alice]).trace
        = ["Failed to add entry to LDAP server: " ++ insufficientAccess.text] ∧
      fatalsOf (ldapCreate (rejectAdds insufficientAccess) sampleConfig sprintfModel
          defaultUserDNFormat [usersNode] []).trace
        = fatalsOf (ldapCreate acceptFirstAddOnly sampleConfig sprintfModel defaultUserDNFormat
            [usersNode, opsNode] [alice]).trace :=
  have h := tree_fatal_message_is_cause acceptFirstAddOnly sampleConfig sprintfModel
    defaultUserDNFormat [usersNode, opsNode] [alice] 1 opsNode insufficientAccess (by decide) rfl
    (fun i t hi ht => by
      have hi0 : i = 0 := by omega
      subst hi0
      rfl)
    rfl
  ⟨h.1, h.2 (rejectAdds insufficientAccess) sampleConfig sprintfModel defaultUserDNFormat
    [usersNode] [] 0 usersNode (by decide) rfl (fun i _ hi _ => absurd hi (Nat.not_lt_zero i))
    rfl⟩

/-- The message repeats the text of the error: when the server's text names
the entry, so does the message. -/
theorem tree_fatal_message_repeats_error_text :
    fatalsOf (ldapCreate (rejectAdds existsNamingEntry) sampleConfig sprintfModel
        defaultUserDNFormat [usersNode] []).trace
        = ["Failed to add entry to LDAP server: exists: CN=Users,DC=global,DC=domain,DC=net"] ∧
      usersNode.DN.data <:+:
        "Failed to add entry to LDAP server: exists: CN=Users,DC=global,DC=domain,DC=net".data := by
  refine ⟨by decide, by decide⟩

/-! ## Runs on two directories that differ at one modify -/

theorem treeLoop_congr (d d' : Directory) (hA : ∀ h r, d'.Add h r = d.Add h r) :
    ∀ (entries : List Entry) (hist : List Request),
      treeLoop d' hist entries = treeLoop d hist entries := by
  intro entries
  induction entries with
  | nil => intro hist; rfl
  | cons e es ih =>
    intro hist
    rw [treeLoop, treeLoop]
    simp only [hA, ih]

theorem userLoop_congr_above (d d' : Directory) (sprintf : String → String → String)
    (userDNFormat : String) (n : Nat)
    (hA : ∀ h r, n ≤ h.length → d'.Add h r = d.Add h r)
    (hM : ∀ h m, n ≤ h.length → d'.Modify h m = d.Modify h m) :
    ∀ (people : List Users) (hist : List Request), n ≤ hist.length →
      userLoop d' sprintf userDNFormat hist people
        = userLoop d sprintf userDNFormat hist people := by
  intro people
  induction people with
  | nil => intro hist _; rfl
  | cons p ps ih =>
    intro hist hn
    have hA0 := hA hist (userAddRequest sprintf userDNFormat p) hn
    cases hadd : d.Add hist (userAddRequest sprintf userDNFormat p) with
    | none =>
      rw [userLoop_cons_added sprintf userDNFormat ps hadd,
        userLoop_cons_added sprintf userDNFormat ps (hA0.trans hadd),
        ih _ (by simp; omega)]
    | some err =>
      cases hcode : IsErrorWithCode err LDAPResultEntryAlreadyExists with
      | false =>
        rw [userLoop_cons_fatal sprintf userDNFormat ps hadd hcode,
          userLoop_cons_fatal sprintf userDNFormat ps (hA0.trans hadd) hcode]
      | true =>
        rw [userLoop_cons_exists sprintf userDNFormat ps hadd hcode,
          userLoop_cons_exists sprintf userDNFormat ps (hA0.trans hadd) hcode,
          ih _ (by simp; omega), hM _ _ (by simp; omega)]

theorem userLoop_congr_below (d d' : Directory) (sprintf : String → String → String)
    (userDNFormat : String) (n : Nat)
    (hA : ∀ h r, h.length < n → d'.Add h r = d.Add h r)
    (hM : ∀ h m, h.length < n → d'.Modify h m = d.Modify h m) :
    ∀ (people : List Users) (hist : List Request) (evs : List Event) (b : Bool),
      userLoop d sprintf userDNFormat hist people = (evs, b) →
      hist.length + (requestsOf evs).length ≤ n →
      userLoop d' sprintf userDNFormat hist people = (evs, b) := by
  intro people
  induction people with
  | nil => intro hist evs b h _; exact h
  | cons p ps ih =>
    intro hist evs b h hn
    cases hadd : d.Add hist (userAddRequest sprintf userDNFormat p) with
    | none =>
      rw [userLoop_cons_added sprintf userDNFormat ps hadd] at h
      obtain ⟨evs', h1, h2⟩ := (Step.after_eq_iff _ _ _ _).1 h
      subst h2
      simp only [requestsOf_append, requestsOf_request, requestsOf_logPrint, requestsOf_nil,
        List.length_append, List.length_cons, List.length_nil] at hn
      have hA0 := hA hist (userAddRequest sprintf userDNFormat p) (by omega)
      rw [userLoop_cons_added sprintf userDNFormat ps (hA0.trans hadd),
        ih _ _ _ h1 (by simp; omega)]
      simp [Step.after]
    | some err =>
      cases hcode : IsErrorWithCode err LDAPResultEntryAlreadyExists with
      | false =>
        rw [userLoop_cons_fatal sprintf userDNFormat ps hadd hcode] at h
        simp only [Prod.mk.injEq] at h
        obtain ⟨h1, h2⟩ := h
        subst h1 h2
        simp only [requestsOf_request, requestsOf_logFatal, requestsOf_nil, List.length_cons,
          List.length_nil] at hn
        have hA0 := hA hist (userAddRequest sprintf userDNFormat p) (by omega)
        rw [userLoop_cons_fatal sprintf userDNFormat ps (hA0.trans hadd) hcode]
      | true =>
        rw [userLoop_cons_exists sprintf userDNFormat ps hadd hcode] at h
        obtain ⟨evs', h1, h2⟩ := (Step.after_eq_iff _ _ _ _).1 h
        subst h2
        simp only [requestsOf_append, requestsOf_request, requestsOf_logPrint, requestsOf_nil,
          List.length_append, List.length_cons, List.length_nil] at hn
        have hA0 := hA hist (userAddRequest sprintf userDNFormat p) (by omega)
        rw [userLoop_cons_exists sprintf userDNFormat ps (hA0.trans hadd) hcode,
          ih _ _ _ h1 (by simp; omega), hM _ _ (by simp; omega)]
        simp [Step.after]

theorem ldapCreate_acceptModifyAt_earlier {d : Directory} {cfg : Config}
    {sprintf : String → String → String} {userDNFormat : String} {tree : List Tree}
    {pre : List Users} (hist : List Request) (m : ModifyRequest)
    (hpre : (ldapCreate d cfg sprintf userDNFormat tree pre).exit = .returned)
    (hlen : (requestsOf (ldapCreate d cfg sprintf userDNFormat tree pre).trace).length
      < hist.length) :
    ldapCreate (acceptModifyAt d hist m) cfg sprintf userDNFormat tree pre
      = ldapCreate d cfg sprintf userDNFormat tree pre := by
  obtain ⟨hc, evs1, evs2, ht, hu⟩ := ldapCreate_returned hpre
  have hrun := ldapCreate_of_loops hc ht hu
  rw [hrun] at hlen ⊢
  simp only [if_true, requestsOf_append, requestsOf_connectEvents, requestsOf_logPrint,
    requestsOf_close, requestsOf_nil, List.nil_append, List.append_nil, List.length_append]
    at hlen
  have hc' : Connects (acceptModifyAt d hist m) cfg := hc
  have ht' : treeLoop (acceptModifyAt d hist m) []
      (tree.map (fun t => NewEntry t.DN t.Attributes)) = (evs1, true) := by
    rw [treeLoop_congr d (acceptModifyAt d hist m) (fun _ _ => rfl)]; exact ht
  have hu' : userLoop (acceptModifyAt d hist m) sprintf userDNFormat (requestsOf evs1) pre
      = (evs2, true) := by
    refine userLoop_congr_below d (acceptModifyAt d hist m) sprintf userDNFormat
      ((requestsOf evs1).length + (requestsOf evs2).length) (fun _ _ _ => rfl) ?_ pre _ _ _ hu
      (le_refl _)
    intro h r hh
    have hne : h ≠ hist := by
      intro heq; subst heq; omega
    simp [acceptModifyAt, hne]
  exact ldapCreate_of_loops hc' ht' hu'

/-- C6: when the run on the users before the j-th completes, the add for the
j-th user fails with "entry already exists" and the following modify is
rejected, the run logs "Failed to update user" with the modify's error for
that user and goes on with the later users.  What follows that log line (the
events for the later users, whether the connection is closed, the exit
status) is the same as on the directory that differs only in accepting that
modify, where the line is "Successfully updated user". -/
theorem create_continues_after_failed_update (d : Directory) (cfg : Config)
    (sprintf : String → String → String) (userDNFormat : String) (tree : List Tree)
    (pre : List Users) (person : Users) (later : List Users) (err err2 : GoError)
    (hpre : (ldapCreate d cfg sprintf userDNFormat tree pre).exit = .returned)
    (hadd : d.Add (requestsOf (ldapCreate d cfg sprintf userDNFormat tree pre).trace)
      (userAddRequest sprintf userDNFormat person) = some err)
    (hcode : IsErrorWithCode err LDAPResultEntryAlreadyExists = true)
    (hmod : d.Modify
      (requestsOf (ldapCreate d cfg sprintf userDNFormat tree pre).trace
        ++ [.add (userAddRequest sprintf userDNFormat person)])
      (userModifyRequest sprintf userDNFormat person) = some err2) :
    ldapCreate d cfg sprintf userDNFormat tree (pre ++ person :: later)
        = { trace := (ldapCreate d cfg sprintf userDNFormat tree pre).trace.dropLast
              ++ [.request (.add (userAddRequest sprintf userDNFormat person)),
                  .logPrint ("User " ++ person.User ++ " already exists, updating..."),
                  .request (.modify (userModifyRequest sprintf userDNFormat person)),
                  .logPrint ("Failed to update user " ++ person.User ++ ": " ++ err2.text)]
              ++ Step.finish (userLoop d sprintf userDNFormat
                  (requestsOf (ldapCreate d cfg sprintf userDNFormat tree pre).trace
                    ++ [.add (userAddRequest sprintf userDNFormat person),
                        .modify (userModifyRequest sprintf userDNFormat person)]) later),
            exit := Step.exit (userLoop d sprintf userDNFormat
                  (requestsOf (ldapCreate d cfg sprintf userDNFormat tree pre).trace
                    ++ [.add (userAddRequest sprintf userDNFormat person),
                        .modify (userModifyRequest sprintf userDNFormat person)]) later) } ∧
      ldapCreate
          (acceptModifyAt d
            (requestsOf (ldapCreate d cfg sprintf userDNFormat tree pre).trace
              ++ [.add (userAddRequest sprintf userDNFormat person)])
            (userModifyRequest sprintf userDNFormat person))
          cfg sprintf userDNFormat tree (pre ++ person :: later)
        = { trace := (ldapCreate d cfg sprintf userDNFormat tree pre).trace.dropLast
              ++ [.request (.add (userAddRequest sprintf userDNFormat person)),
                  .logPrint ("User " ++ person.User ++ " already exists, updating..."),
                  .request (.modify (userModifyRequest sprintf userDNFormat person)),
                  .logPrint ("Successfully updated user " ++ person.User)]
              ++ Step.finish (userLoop d sprintf userDNFormat
                  (requestsOf (ldapCreate d cfg sprintf userDNFormat tree pre).trace
                    ++ [.add (userAddRequest sprintf userDNFormat person),
                        .modify (userModifyRequest sprintf userDNFormat person)]) later),
            exit := Step.exit (userLoop d sprintf userDNFormat
                  (requestsOf (ldapCreate d cfg sprintf userDNFormat tree pre).trace
                    ++ [.add (userAddRequest sprintf userDNFormat person),
                        .modify (userModifyRequest sprintf userDNFormat person)]) later) } := by
  constructor
  · rw [ldapCreate_append (person :: later) hpre,
      userLoop_cons_exists sprintf userDNFormat later hadd hcode, hmod]
    simp [Step.after, Step.finish, Step.exit]
  · have hsame := ldapCreate_acceptModifyAt_earlier
      (requestsOf (ldapCreate d cfg sprintf userDNFormat tree pre).trace
        ++ [.add (userAddRequest sprintf userDNFormat person)])
      (userModifyRequest sprintf userDNFormat person) hpre (by simp)
    have hpre' := hpre
    rw [← hsame] at hpre'
    rw [ldapCreate_append (person :: later) hpre', hsame]
    have hadd' : (acceptModifyAt d
        (requestsOf (ldapCreate d cfg sprintf userDNFormat tree pre).trace
          ++ [.add (userAddRequest sprintf userDNFormat person)])
        (userModifyRequest sprintf userDNFormat person)).Add
        (requestsOf (ldapCreate d cfg sprintf userDNFormat tree pre).trace)
        (userAddRequest sprintf userDNFormat person) = some err := hadd
    rw [userLoop_cons_exists sprintf userDNFormat later hadd' hcode]
    have hlater := userLoop_congr_above d
      (acceptModifyAt d
        (requestsOf (ldapCreate d cfg sprintf userDNFormat tree pre).trace
          ++ [.add (userAddRequest sprintf userDNFormat person)])
        (userModifyRequest sprintf userDNFormat person))
      sprintf userDNFormat
      ((requestsOf (ldapCreate d cfg sprintf userDNFormat tree pre).trace).length + 2)
      (fun _ _ _ => rfl)
      (by
        intro h r hh
        have hne : h ≠ requestsOf (ldapCreate d cfg sprintf userDNFormat tree pre).trace
            ++ [.add (userAddRequest sprintf userDNFormat person)] := by
          intro heq; subst heq; simp at hh
        simp [acceptModifyAt, hne])
      later
      (requestsOf (ldapCreate d cfg sprintf userDNFormat tree pre).trace
        ++ [.add (userAddRequest sprintf userDNFormat person),
            .modify (userModifyRequest sprintf userDNFormat person)])
      (by simp)
    rw [hlater]
    have hacc : (acceptModifyAt d
        (requestsOf (ldapCreate d cfg sprintf userDNFormat tree pre).trace
          ++ [.add (userAddRequest sprintf userDNFormat person)])
        (userModifyRequest sprintf userDNFormat person)).Modify
        (requestsOf (ldapCreate d cfg sprintf userDNFormat tree pre).trace
          ++ [.add (userAddRequest sprintf userDNFormat person)])
        (userModifyRequest sprintf userDNFormat person) = none := by
      simp [acceptModifyAt]
    rw [hacc]
    simp [Step.after, Step.finish, Step.exit]

/-- Witness for C6: the tree is created, the entry of the first user exists and
its modify is rejected; a second user follows. -/
theorem create_continues_after_failed_update_witness :
    (ldapCreate existsAfterTree sampleConfig sprintfModel defaultUserDNFormat [usersNode]
        ([] ++ alice :: [bob])).exit = .returned ∧
    logsOf (ldapCreate existsAfterTree sampleConfig sprintfModel defaultUserDNFormat [usersNode]
        ([] ++ alice :: [bob])).trace
      = ["LDAP tree creation successful!",
         "User Alice A already exists, updating...",
         "Failed to update user Alice A: insufficient access",
         "User Bob B already exists, updating...",
         "Failed to update user Bob B: insufficient access"] ∧
    (ldapCreate existsAfterTree sampleConfig sprintfModel defaultUserDNFormat [usersNode]
        ([] ++ alice :: [bob])
        = { trace := (ldapCreate existsAfterTree sampleConfig sprintfModel defaultUserDNFormat
                [usersNode] []).trace.dropLast
              ++ [.request (.add (userAddRequest sprintfModel defaultUserDNFormat alice)),
                  .logPrint ("User " ++ alice.User ++ " already exists, updating..."),
                  .request (.modify (userModifyRequest sprintfModel defaultUserDNFormat alice)),
                  .logPrint ("Failed to update user " ++ alice.User ++ ": "
                    ++ insufficientAccess.text)]
              ++ Step.finish (userLoop existsAfterTree sprintfModel defaultUserDNFormat
                  (requestsOf (ldapCreate existsAfterTree sampleConfig sprintfModel
                      defaultUserDNFormat [usersNode] []).trace
                    ++ [.add (userAddRequest sprintfModel defaultUserDNFormat alice),
                        .modify (userModifyRequest sprintfModel defaultUserDNFormat alice)])
                  [bob]),
            exit := Step.exit (userLoop existsAfterTree sprintfModel defaultUserDNFormat
                  (requestsOf (ldapCreate existsAfterTree sampleConfig sprintfModel
                      defaultUserDNFormat [usersNode] []).trace
                    ++ [.add (userAddRequest sprintfModel defaultUserDNFormat alice),
                        .modify (userModifyRequest sprintfModel defaultUserDNFormat alice)])
                  [bob]) } ∧
      ldapCreate
          (acceptModifyAt existsAfterTree
            (requestsOf (ldapCreate existsAfterTree sampleConfig sprintfModel
                defaultUserDNFormat [usersNode] []).trace
              ++ [.add (userAddRequest sprintfModel defaultUserDNFormat alice)])
            (userModifyRequest sprintfModel defaultUserDNFormat alice))
          sampleConfig sprintfModel defaultUserDNFormat [usersNode] ([] ++ alice :: [bob])
        = { trace := (ldapCreate existsAfterTree sampleConfig sprintfModel defaultUserDNFormat
                [usersNode] []).trace.dropLast
              ++ [.request (.add (userAddRequest sprintfModel defaultUserDNFormat alice)),
                  .logPrint ("User " ++ alice.User ++ " already exists, updating..."),
                  .request (.modify (userModifyRequest sprintfModel defaultUserDNFormat alice)),
                  .logPrint ("Successfully updated user " ++ alice.User)]
              ++ Step.finish (userLoop existsAfterTree sprintfModel defaultUserDNFormat
                  (requestsOf (ldapCreate existsAfterTree sampleConfig sprintfModel
                      defaultUserDNFormat [usersNode] []).trace
                    ++ [.add (userAddRequest sprintfModel defaultUserDNFormat alice),
                        .modify (userModifyRequest sprintfModel defaultUserDNFormat alice)])
                  [bob]),
            exit := Step.exit (userLoop existsAfterTree sprintfModel defaultUserDNFormat
                  (requestsOf (ldapCreate existsAfterTree sampleConfig sprintfModel
                      defaultUserDNFormat [usersNode] []).trace
                    ++ [.add (userAddRequest sprintfModel defaultUserDNFormat alice),
                        .modify (userModifyRequest sprintfModel defaultUserDNFormat alice)])
                  [bob]) }) :=
  ⟨by decide, by decide,
    create_continues_after_failed_update existsAfterTree sampleConfig sprintfModel
      defaultUserDNFormat [usersNode] [] alice [bob] alreadyExists insufficientAccess
      (by decide) (by decide) (by decide) (by decide)⟩

/-! ## Formatting the user DN -/

theorem treeLoop_no_close (d : Directory) :
    ∀ (entries : List Entry) (hist : List Request), Event.close ∉ (treeLoop d hist entries).1 := by
  intro entries
  induction entries with
  | nil => intro hist; simp [treeLoop]
  | cons e es ih =>
    intro hist
    rw [treeLoop]
    cases hadd : d.Add hist (addRequestOf e) with
    | some err => simp
    | none => simpa [Step.after] using ih _

theorem userLoop_no_close (d : Directory) (sprintf : String → String → String)
    (userDNFormat : String) :
    ∀ (people : List Users) (hist : List Request),
      Event.close ∉ (userLoop d sprintf userDNFormat hist people).1 := by
  intro people
  induction people with
  | nil => intro hist; simp [userLoop]
  | cons p ps ih =>
    intro hist
    cases hadd : d.Add hist (userAddRequest sprintf userDNFormat p) with
    | none =>
      rw [userLoop_cons_added sprintf userDNFormat ps hadd]
      simpa [Step.after] using ih _
    | some err =>
      cases hcode : IsErrorWithCode err LDAPResultEntryAlreadyExists with
      | false => rw [userLoop_cons_fatal sprintf userDNFormat ps hadd hcode]; simp
      | true =>
        rw [userLoop_cons_exists sprintf userDNFormat ps hadd hcode]
        simpa [Step.after] using ih _

/-- After a successful bind, a run of `create` closes the connection exactly
when the `Run` closure returns: never on a path ending in `log.Fatalf`. -/
theorem ldapCreate_close_iff_returned (d : Directory) (cfg : Config)
    (sprintf : String → String → String) (userDNFormat : String) (tree : List Tree)
    (people : List Users) (hc : Connects d cfg) :
    Event.close ∈ (ldapCreate d cfg sprintf userDNFormat tree people).trace ↔
      (ldapCreate d cfg sprintf userDNFormat tree people).exit = .returned := by
  generalize ht : treeLoop d [] (tree.map (fun t => NewEntry t.DN t.Attributes)) = r1
  obtain ⟨evs1, b1⟩ := r1
  have h1 : Event.close ∉ evs1 := by
    have := treeLoop_no_close d (tree.map (fun t => NewEntry t.DN t.Attributes)) []
    rwa [ht] at this
  cases b1 with
  | false =>
    rw [ldapCreate_of_tree_fatal sprintf userDNFormat people hc ht]
    simp [connectEvents, h1]
  | true =>
    generalize hu : userLoop d sprintf userDNFormat (requestsOf evs1) people = r2
    obtain ⟨evs2, b2⟩ := r2
    have h2 : Event.close ∉ evs2 := by
      have := userLoop_no_close d sprintf userDNFormat people (requestsOf evs1)
      rwa [hu] at this
    rw [ldapCreate_of_loops hc ht hu]
    cases b2 <;> simp [connectEvents, h1, h2]

/-- After a successful bind, a run of `list` closes the connection exactly
when the `Run` closure returns: not when the search fails. -/
theorem ldapList_close_iff_returned (d : Directory) (cfg : Config) (searchBase : String)
    (hc : Connects d cfg) :
    Event.close ∈ (ldapList d cfg searchBase).trace ↔
      (ldapList d cfg searchBase).exit = .returned := by
  unfold ldapList
  rw [ldapConnectAndBind_of_connects hc]
  cases hs : d.Search [] (listSearchRequest searchBase) with
  | error err => simp [connectEvents, hs]
  | ok entries => simp [connectEvents, hs]

/-- C10 fails on the code: on each of the three fatal paths after a successful
bind (a rejected tree add, a user add failing with an error other than
"entry already exists", a failed search) the run ends with `log.Fatalf`, exit
status 1, and its trace has no `close`: the deferred `l.Close()` is not run.
On the runs that return, the connection is closed last. -/
theorem close_skipped_on_fatal_paths :
    (Connects (rejectAdds insufficientAccess) sampleConfig ∧
      ldapCreate (rejectAdds insufficientAccess) sampleConfig sprintfModel defaultUserDNFormat
          [usersNode] [alice]
        = { trace := connectEvents sampleConfig
              ++ [.request (.add (treeAddRequest usersNode)),
                  .logFatal "Failed to add entry to LDAP server: insufficient access"],
            exit := .osExit 1 } ∧
      Event.close ∉ (ldapCreate (rejectAdds insufficientAccess) sampleConfig sprintfModel
          defaultUserDNFormat [usersNode] [alice]).trace) ∧
    (Connects acceptFirstAddOnly sampleConfig ∧
      ldapCreate acceptFirstAddOnly sampleConfig sprintfModel defaultUserDNFormat
          [usersNode] [alice]
        = { trace := connectEvents sampleConfig
              ++ [.request (.add (treeAddRequest usersNode)),
                  .logPrint "LDAP tree creation successful!",
                  .request (.add (userAddRequest sprintfModel defaultUserDNFormat alice)),
                  .logFatal "Failed to add user: insufficient access"],
            exit := .osExit 1 } ∧
      Event.close ∉ (ldapCreate acceptFirstAddOnly sampleConfig sprintfModel
          defaultUserDNFormat [usersNode] [alice]).trace) ∧
    (Connects searchFails sampleConfig ∧
      ldapList searchFails sampleConfig "DC=global,DC=domain,DC=net"
        = { trace := connectEvents sampleConfig
              ++ [.request (.search (listSearchRequest "DC=global,DC=domain,DC=net")),
                  .logFatal "Failed to perform LDAP search: insufficient access"],
            exit := .osExit 1 } ∧
      Event.close ∉ (ldapList searchFails sampleConfig "DC=global,DC=domain,DC=net").trace) ∧
    (ldapCreate acceptAll sampleConfig sprintfModel defaultUserDNFormat
        [usersNode] [alice]).trace.getLast? = some .close ∧
    (ldapList acceptAll sampleConfig "DC=global,DC=domain,DC=net").trace.getLast?
      = some .close := by
  refine ⟨⟨by decide, by decide, by decide⟩, ⟨by decide, by decide, by decide⟩,
    ⟨by decide, by decide, by decide⟩, by decide, by decide⟩

end Ldaputil
